import Mathlib

/-!
Verification of the product catalog application's filter/CRUD service
boundary.  The service layer (productService) translates a typed
`ProductFilter` into a query-builder chain (equality, inclusive range,
ILIKE pattern, OR combination, ordering) executed by the backend store.
Here the backend table is modelled as a list of product rows, the built
query as a list of clauses, and query execution as filtering by the
conjunction of all clauses followed by a stable sort on `created_at`
descending.
-/

namespace Catalog

/-- Product row as stored in the `products` table: id and created_at are
assigned at creation; name, description, category, price, rating are the
mutable payload.  Timestamps are modelled as naturals, decimals as
rationals. -/
structure Product where
  id : String
  name : String
  description : String
  category : String
  price : Rat
  rating : Rat
  created_at : Nat
deriving DecidableEq, Repr

/-- ProductFilter from productService: every field optional. -/
structure ProductFilter where
  category : Option String
  minPrice : Option Rat
  maxPrice : Option Rat
  minRating : Option Rat
  searchQuery : Option String
deriving DecidableEq, Repr

/-- Clause of the query built by `getProducts`: the query-builder calls
`eq('category', v)`, `gte('price', v)`, `lte('price', v)`,
`gte('rating', v)` and `or(name.ilike.P, description.ilike.P)` are each
one clause. -/
inductive Clause where
  | eqCategory (v : String)
  | gtePrice (v : Rat)
  | ltePrice (v : Rat)
  | gteRating (v : Rat)
  | orIlike (namePat descPat : String)
deriving DecidableEq, Repr

/-- Clauses contributed by the category field: the code guards with the
JavaScript truthiness test `if (filters.category)`, so an absent or
empty-string category contributes nothing. -/
def categoryClauses (f : ProductFilter) : List Clause :=
  match f.category with
  | some c => if c = "" then [] else [Clause.eqCategory c]
  | none => []

/-- Clauses contributed by minPrice: guarded by `!== undefined`, so a
present 0 still contributes its bound. -/
def minPriceClauses (f : ProductFilter) : List Clause :=
  match f.minPrice with
  | some v => [Clause.gtePrice v]
  | none => []

/-- Clauses contributed by maxPrice: guarded by `!== undefined`. -/
def maxPriceClauses (f : ProductFilter) : List Clause :=
  match f.maxPrice with
  | some v => [Clause.ltePrice v]
  | none => []

/-- Clauses contributed by minRating: guarded by `!== undefined`. -/
def minRatingClauses (f : ProductFilter) : List Clause :=
  match f.minRating with
  | some v => [Clause.gteRating v]
  | none => []

/-- Clauses contributed by searchQuery: truthiness-guarded like category;
the code interpolates the raw query into the ILIKE patterns
`%searchQuery%` for both name and description. -/
def searchClauses (f : ProductFilter) : List Clause :=
  match f.searchQuery with
  | some q => if q = "" then [] else
      [Clause.orIlike ("%" ++ q ++ "%") ("%" ++ q ++ "%")]
  | none => []

/-- Query built by `getProducts`: no filter object means no clauses;
otherwise the five conditional builder calls run in source order. -/
def buildQuery : Option ProductFilter → List Clause
  | none => []
  | some f =>
      categoryClauses f ++ minPriceClauses f ++ maxPriceClauses f ++
        minRatingClauses f ++ searchClauses f

/-- Lower-cased character list of a string; PostgreSQL ILIKE compares
case-insensitively, modelled by lowering both pattern and text. -/
def lowerL (s : String) : List Char := s.data.map Char.toLower

/-- SQL LIKE pattern matching over character lists: `%` matches any
sequence (some suffix of the text continues the match), `_` matches any
single character, any other pattern character matches itself.  (Escape
sequences never arise from the code's patterns and are not modelled.) -/
def likeMatch : List Char → List Char → Bool
  | [], ts => ts.isEmpty
  | c :: ps', ts =>
      if c = '%' then ts.tails.any (fun s => likeMatch ps' s)
      else
        match ts with
        | [] => false
        | t :: ts' => if c = '_' then likeMatch ps' ts' else (t == c) && likeMatch ps' ts'

/-- ILIKE predicate: case-insensitive LIKE of the pattern against the
field. -/
def ilikeB (field pat : String) : Bool := likeMatch (lowerL pat) (lowerL field)

/-- Evaluation of one query clause on one row, following the backend's
predicate semantics (gte/lte are inclusive). -/
def evalClause (c : Clause) (p : Product) : Bool :=
  match c with
  | Clause.eqCategory v => p.category == v
  | Clause.gtePrice v => decide (v ≤ p.price)
  | Clause.ltePrice v => decide (p.price ≤ v)
  | Clause.gteRating v => decide (v ≤ p.rating)
  | Clause.orIlike np dp => ilikeB p.name np || ilikeB p.description dp

/-- Ordering requested by `order('created_at', { ascending: false })`:
row p precedes row q when p is at least as new. -/
def byNewest (p q : Product) : Prop := q.created_at ≤ p.created_at

instance : DecidableRel byNewest := fun p q => Nat.decLe q.created_at p.created_at

instance : IsTotal Product byNewest := ⟨fun p q => Nat.le_total q.created_at p.created_at⟩

instance : IsTrans Product byNewest := ⟨fun _ _ _ h1 h2 => Nat.le_trans h2 h1⟩

/-- Execution of the built query by the backend: keep the rows satisfying
every clause, then order by `created_at` descending (a stable sort; the
spec leaves tie order unspecified). -/
def getProducts (filters : Option ProductFilter) (db : List Product) : List Product :=
  List.insertionSort byNewest
    (db.filter (fun p => (buildQuery filters).all (fun c => evalClause c p)))

/-- Boolean test that `ps` is a prefix of `ts` (characters compared with
`==`, text character on the left). -/
def prefixMatch : List Char → List Char → Bool
  | [], _ => true
  | _ :: _, [] => false
  | c :: ps', t :: ts' => (t == c) && prefixMatch ps' ts'

/-- Boolean test that `ps` occurs as a contiguous sublist of `ts`. -/
def containsSub (ps : List Char) : List Char → Bool
  | [] => prefixMatch ps []
  | t :: ts' => prefixMatch ps (t :: ts') || containsSub ps ts'

/-- Case-insensitive substring test: the spec's notion of text search
("case-insensitive substring match against name OR description"). -/
def ciContains (hay needle : String) : Bool :=
  containsSub (lowerL needle) (lowerL hay)

/-- Absence of SQL wildcard characters in a character list. -/
def noWild (cs : List Char) : Bool :=
  cs.all (fun c => !(c == '%') && !(c == '_'))

/-- Matcher transcribing the spec's claim literally: every present filter
field constrains (category equality, inclusive price bounds, inclusive
minimum rating, case-insensitive substring search on name or
description); absent fields impose no constraint. -/
def specMatches (f : ProductFilter) (p : Product) : Bool :=
  (match f.category with
   | none => true
   | some c => p.category == c) &&
  (match f.minPrice with
   | none => true
   | some v => decide (v ≤ p.price)) &&
  (match f.maxPrice with
   | none => true
   | some v => decide (p.price ≤ v)) &&
  (match f.minRating with
   | none => true
   | some v => decide (v ≤ p.rating)) &&
  (match f.searchQuery with
   | none => true
   | some q => ciContains p.name q || ciContains p.description q)

/-- Amended matcher: as `specMatches`, except that a present empty-string
category or searchQuery imposes no constraint (the code guards those two
fields by JavaScript truthiness rather than by presence). -/
def specMatchesA (f : ProductFilter) (p : Product) : Bool :=
  (match f.category with
   | none => true
   | some c => (c == "") || (p.category == c)) &&
  (match f.minPrice with
   | none => true
   | some v => decide (v ≤ p.price)) &&
  (match f.maxPrice with
   | none => true
   | some v => decide (p.price ≤ v)) &&
  (match f.minRating with
   | none => true
   | some v => decide (v ≤ p.rating)) &&
  (match f.searchQuery with
   | none => true
   | some q => (q == "") || (ciContains p.name q || ciContains p.description q))

/-- Amended matcher extended to the optional filter argument: a missing
filter object imposes no constraint at all. -/
def specMatchesOpt : Option ProductFilter → Product → Bool
  | none, _ => true
  | some f, p => specMatchesA f p

/-- Guard for the amended filter claims: a present searchQuery must be
free of SQL wildcard characters (checked on its lower-cased form, which
coincides with the raw form because `Char.toLower` fixes `%` and `_`). -/
def searchOk : Option ProductFilter → Bool
  | none => true
  | some f =>
      match f.searchQuery with
      | none => true
      | some q => noWild (lowerL q)

/-- Wildcard guard restricted to one filter object. -/
def searchOkF (f : ProductFilter) : Bool :=
  match f.searchQuery with
  | none => true
  | some q => noWild (lowerL q)

/-- Example row used in concrete instances: a Books record. -/
def pBooks : Product :=
  ⟨"p1", "Clean Code", "A book about code", "Books", 30, 4, 1⟩

/-- Example row with plain name and description free of `%`. -/
def pPlain : Product :=
  ⟨"x1", "abc", "defg", "Home", 1, 1, 0⟩

/-- Book of the spec's example scenario: index in the price/rating lists
is its creation order. -/
def exBook (i : Nat) (idS : String) (pr ra : Rat) : Product :=
  ⟨idS, "Book " ++ idS, "desc", "Books", pr, ra, i⟩

/-- Catalog of the example scenario: 5 books priced [5,12,18,25,15] with
ratings [3,4.5,5,2,4]. -/
def exCatalog : List Product :=
  [exBook 1 "b1" 5 3, exBook 2 "b2" 12 (mkRat 9 2), exBook 3 "b3" 18 5,
   exBook 4 "b4" 25 2, exBook 5 "b5" 15 4]

/-- Filter of the example scenario. -/
def exFilter : ProductFilter :=
  ⟨some "Books", some 10, some 20, some 4, none⟩

/-- Whitespace trim of JavaScript's `String.prototype.trim`, over the
character list of the string. -/
def jsTrim (s : String) : List Char :=
  ((s.data.dropWhile Char.isWhitespace).reverse.dropWhile Char.isWhitespace).reverse

/-- Value of a base-10 digit character list. -/
def digitsVal (cs : List Char) : Nat :=
  cs.foldl (fun n c => 10 * n + (c.toNat - 48)) 0

/-- Split of a character list at the first occurrence of a separator:
the part before it and, when the separator occurs, the part after it. -/
def splitFirst (sep : Char) : List Char → List Char × Option (List Char)
  | [] => ([], none)
  | c :: cs =>
      if c = sep then ([], some cs)
      else
        let r := splitFirst sep cs
        (c :: r.1, r.2)

/-- Mantissa parse: digits, optionally with one decimal point and digits
on either side (not both absent); the result is the integer numerator and
the power-of-ten scale of the fractional part. -/
def parseMantissa (cs : List Char) : Option (Int × Nat) :=
  let r := splitFirst '.' cs
  match r.2 with
  | none =>
      if !r.1.isEmpty && r.1.all Char.isDigit then some ((digitsVal r.1 : Int), 0)
      else none
  | some fp =>
      if r.1.isEmpty && fp.isEmpty then none
      else if r.1.all Char.isDigit && fp.all Char.isDigit then
        some (((digitsVal r.1 * 10 ^ fp.length + digitsVal fp : Nat) : Int), fp.length)
      else none

/-- Exponent parse: an optional sign followed by at least one digit. -/
def parseExp (cs : List Char) : Option Int :=
  match cs with
  | [] => none
  | '+' :: ds =>
      if !ds.isEmpty && ds.all Char.isDigit then some ((digitsVal ds : Int)) else none
  | '-' :: ds =>
      if !ds.isEmpty && ds.all Char.isDigit then some (-(digitsVal ds : Int)) else none
  | ds => if ds.all Char.isDigit then some ((digitsVal ds : Int)) else none

/-- Modelled from the spec: the ECMAScript `Number(string)` conversion the
form applies to its price and rating inputs ("must parse as a number"),
restricted to decimal numeric literals.  The string is trimmed; an empty
remainder converts to 0; an optional sign, decimal mantissa and optional
decimal exponent convert to the exact rational value; anything else is
NaN, represented as `none`.  (The hex/binary/Infinity forms of the full
conversion cannot come from the form's numeric inputs and are not
modelled; float64 rounding is idealised away, exact at the one-decimal
values the claims use.) -/
def jsNumber (s : String) : Option Rat :=
  let t := jsTrim s
  if t.isEmpty then some 0
  else
    let sb : Int × List Char :=
      match t with
      | '+' :: rest => (1, rest)
      | '-' :: rest => (-1, rest)
      | rest => (1, rest)
    let norm := sb.2.map fun c => if c = 'E' then 'e' else c
    let me := splitFirst 'e' norm
    match parseMantissa me.1 with
    | none => none
    | some m =>
        match me.2 with
        | none => some (mkRat (sb.1 * m.1) (10 ^ m.2))
        | some ex =>
            match parseExp ex with
            | none => none
            | some e =>
                if 0 ≤ e then some (mkRat (sb.1 * m.1 * 10 ^ e.toNat) (10 ^ m.2))
                else some (mkRat (sb.1 * m.1) (10 ^ m.2 * 10 ^ (-e).toNat))

/-- Form state of ProductForm: all five inputs are strings. -/
structure FormDetails where
  name : String
  description : String
  category : String
  price : String
  rating : String
deriving DecidableEq, Repr

/-- Price rule lower bound of formRules. -/
def priceRuleMin : Rat := 0

/-- Price rule message of formRules. -/
def priceRuleMessage : String := "C\x27mon, price can\x27t be negative!"

/-- Rating rule lower bound of formRules. -/
def ratingRuleMin : Rat := 0

/-- Rating rule upper bound of formRules. -/
def ratingRuleMax : Rat := 5

/-- Rating rule message of formRules. -/
def ratingRuleMessage : String := "Let\x27s stick to a rating between 0 and 5 stars"

/-- Validation of the form state, translated from checkFormValidity: the
five rules run in source order and the first failure returns its
message; `none` means the form is valid. -/
def checkFormValidity (d : FormDetails) : Option String :=
  if jsTrim d.name = [] then some "Hey, we need a name for this product!"
  else if jsTrim d.description = [] then some "Mind adding a quick description?"
  else if d.category = "" then some "Please pick a category for this item"
  else
    match jsNumber d.price with
    | none => some priceRuleMessage
    | some pv =>
        if pv < priceRuleMin then some priceRuleMessage
        else
          match jsNumber d.rating with
          | none => some ratingRuleMessage
          | some rv =>
              if rv < ratingRuleMin ∨ ratingRuleMax < rv then some ratingRuleMessage
              else none

/-- Draft of product fields handed to the service by the form. -/
structure ProductDraft where
  name : String
  description : String
  category : String
  price : Rat
  rating : Rat
deriving DecidableEq, Repr

/-- Submission path of handleSubmit: validation runs first and a failure
blocks the service call (`none`); on success the draft carries the raw
name, description and category strings and the numeric conversions of
price and rating (which the passed validation guarantees to be numbers;
`getD` is the total extraction). -/
def buildSubmittedDraft (d : FormDetails) : Option ProductDraft :=
  match checkFormValidity d with
  | some _ => none
  | none =>
      some ⟨d.name, d.description, d.category,
        (jsNumber d.price).getD 0, (jsNumber d.rating).getD 0⟩

/-- createProduct, translated from productService.createProduct together
with the backend insert: the draft fields are spread into the new row,
created_at is stamped by the service at insertion time, the id is
generated by the backend, and the stored row is returned. -/
def createProduct (draft : ProductDraft) (now : Nat) (genId : String) : Product :=
  ⟨genId, draft.name, draft.description, draft.category, draft.price, draft.rating, now⟩

/-- Validation rules in the order the spec lists them: each entry pairs
the rule's failure condition with its user-facing message. -/
def specRules (d : FormDetails) : List (Bool × String) :=
  [(jsTrim d.name == [], "Hey, we need a name for this product!"),
   (jsTrim d.description == [], "Mind adding a quick description?"),
   (d.category == "", "Please pick a category for this item"),
   ((match jsNumber d.price with
     | none => true
     | some pv => decide (pv < priceRuleMin)), priceRuleMessage),
   ((match jsNumber d.rating with
     | none => true
     | some rv => decide (rv < ratingRuleMin) || decide (ratingRuleMax < rv)),
    ratingRuleMessage)]

/-- Message of the first failing rule of a rule list; none when every
rule passes. -/
def firstFailure : List (Bool × String) → Option String
  | [] => none
  | (b, m) :: rest => if b then some m else firstFailure rest

/-- Valid form state except for the given rating string. -/
def ratingForm (r : String) : FormDetails :=
  ⟨"Gadget", "A fine gadget", "Electronics", "10", r⟩

/-- Backend effect of deleteProduct: `delete().eq('id', id)` removes the
rows with the given id from the table. -/
def deleteFromDb (db : List Product) (pid : String) : List Product :=
  db.filter fun p => !(p.id == pid)

/-- Displayed-list update of handleProductRemoval on success: the list is
patched in memory, keeping the previously displayed rows whose id
differs from the deleted one; no fetch is issued. -/
def handleProductRemovalSuccess (displayed : List Product) (pid : String) : List Product :=
  displayed.filter fun p => !(p.id == pid)

/-- Displayed-list update of the form's onSuccess callback after a
successful create or update: refreshProductList re-fetches with the
committed filters and replaces the displayed list with the response. -/
def formOnSuccess (filters : ProductFilter) (db : List Product) : List Product :=
  getProducts (some filters) db

/-- Filter with no field set: the initial committed filter state. -/
def emptyFilter : ProductFilter := ⟨none, none, none, none, none⟩

/-- Example row distinct from `pBooks`, newer than it. -/
def pLamp : Product := ⟨"p9", "Lamp", "A desk lamp", "Home", 20, 3, 9⟩

/-- Partial filter update passed to handleFilter: a present outer value
overwrites the corresponding field of the draft (object spread
semantics); an absent one leaves it. -/
structure FilterPatch where
  category : Option (Option String)
  minPrice : Option (Option Rat)
  maxPrice : Option (Option Rat)
  minRating : Option (Option Rat)
  searchQuery : Option (Option String)
deriving DecidableEq, Repr

/-- Merge of handleFilter: `{ ...prev, ...newFilters }`. -/
def mergeFilter (f : ProductFilter) (patch : FilterPatch) : ProductFilter :=
  ⟨patch.category.getD f.category, patch.minPrice.getD f.minPrice,
   patch.maxPrice.getD f.maxPrice, patch.minRating.getD f.minRating,
   patch.searchQuery.getD f.searchQuery⟩

/-- UI state of ProductList relevant to filtering: the committed filters
(state variable `filters`), the draft (`tempFilters`), the displayed
products, and the number of getProducts calls issued so far. -/
structure ListState where
  committed : ProductFilter
  draft : ProductFilter
  products : List Product
  fetchCount : Nat
deriving DecidableEq, Repr

/-- Filter events of the list UI: a field edit (handleFilter, fired by
the inputs' onChange) or the Apply Filters click (applyFilters). -/
inductive FilterEvent where
  | edit (patch : FilterPatch)
  | apply
deriving DecidableEq, Repr

/-- Transition of the list UI on a filter event, with the backend table
as context: an edit only merges the patch into the draft; apply copies
the draft into the committed filters, whereupon the effect keyed on the
committed filters issues one getProducts call whose response replaces
the displayed list wholesale. -/
def stepFilter (db : List Product) (s : ListState) : FilterEvent → ListState
  | FilterEvent.edit patch =>
      ⟨s.committed, mergeFilter s.draft patch, s.products, s.fetchCount⟩
  | FilterEvent.apply =>
      ⟨s.draft, s.draft, getProducts (some s.draft) db, s.fetchCount + 1⟩

/-- Unfolding of `likeMatch` at a leading `%`: some suffix of the text
matches the rest of the pattern. -/
theorem likeMatch_percent_cons (ps ts : List Char) :
    likeMatch ('%' :: ps) ts = ts.tails.any (fun s => likeMatch ps s) := by
  simp [likeMatch]

/-- Some suffix of any list is empty. -/
theorem tails_any_isEmpty (ts : List Char) :
    (ts.tails.any fun s => s.isEmpty) = true := by
  induction ts with
  | nil => rfl
  | cons t ts' ih => simp [List.tails, List.any_cons, ih]

/-- A bare `%` pattern matches every text. -/
theorem likeMatch_percent (ts : List Char) : likeMatch ['%'] ts = true := by
  rw [likeMatch_percent_cons]
  simp only [likeMatch]
  exact tails_any_isEmpty ts

/-- A wildcard-free pattern followed by `%` matches exactly the texts it
prefixes. -/
theorem likeMatch_append_percent (ps : List Char) (hw : noWild ps = true) :
    ∀ ts, likeMatch (ps ++ ['%']) ts = prefixMatch ps ts := by
  induction ps with
  | nil =>
      intro ts
      simpa [prefixMatch] using likeMatch_percent ts
  | cons c ps' ih =>
      intro ts
      simp only [noWild, List.all_cons, Bool.and_eq_true, Bool.not_eq_true',
        beq_eq_false_iff_ne, ne_eq] at hw
      obtain ⟨⟨hc1, hc2⟩, hrest⟩ := hw
      have ihw : noWild ps' = true := by
        simp only [noWild]
        exact hrest
      cases ts with
      | nil => simp [likeMatch, hc1, prefixMatch]
      | cons t ts' => simp [likeMatch, hc1, hc2, prefixMatch, ih ihw ts']

/-- Checking a prefix at every suffix is substring containment. -/
theorem tails_any_prefixMatch (ps ts : List Char) :
    (ts.tails.any fun s => prefixMatch ps s) = containsSub ps ts := by
  induction ts with
  | nil => simp [List.tails, containsSub]
  | cons t ts' ih => simp [List.tails, List.any_cons, containsSub, ih]

/-- Matching `%ps%` for wildcard-free `ps` is substring containment. -/
theorem likeMatch_sandwich (ps : List Char) (hw : noWild ps = true)
    (ts : List Char) : likeMatch ('%' :: (ps ++ ['%'])) ts = containsSub ps ts := by
  rw [likeMatch_percent_cons]
  simp only [likeMatch_append_percent ps hw]
  exact tails_any_prefixMatch ps ts

/-- Character data of an appended string. -/
theorem data_append (a b : String) : (a ++ b).data = a.data ++ b.data := by
  cases a
  cases b
  rfl

/-- Lower-cased characters of an appended string. -/
theorem lowerL_append (a b : String) : lowerL (a ++ b) = lowerL a ++ lowerL b := by
  simp [lowerL, data_append]

/-- Shape of the lowered ILIKE pattern the code builds from a search
query. -/
theorem lowerL_pattern (q : String) :
    lowerL ("%" ++ q ++ "%") = '%' :: (lowerL q ++ ['%']) := by
  have h1 : lowerL "%" = ['%'] := rfl
  rw [lowerL_append, lowerL_append, h1]
  rfl

/-- Evaluation of the search clause on a row is the case-insensitive
substring test, provided the query is wildcard-free. -/
theorem evalClause_orIlike_search (q : String) (hw : noWild (lowerL q) = true)
    (p : Product) :
    evalClause (Clause.orIlike ("%" ++ q ++ "%") ("%" ++ q ++ "%")) p =
      (ciContains p.name q || ciContains p.description q) := by
  simp only [evalClause, ilikeB, lowerL_pattern]
  rw [likeMatch_sandwich (lowerL q) hw, likeMatch_sandwich (lowerL q) hw]
  rfl

/-- Conjunction over the category clauses. -/
theorem categoryClauses_all (f : ProductFilter) (p : Product) :
    ((categoryClauses f).all fun c => evalClause c p) =
      (match f.category with
       | none => true
       | some c => (c == "") || (p.category == c)) := by
  cases h : f.category with
  | none => simp [categoryClauses, h]
  | some c =>
      by_cases hc : c = ""
      · simp [categoryClauses, h, hc]
      · simp [categoryClauses, h, hc, evalClause]

/-- Conjunction over the minPrice clauses. -/
theorem minPriceClauses_all (f : ProductFilter) (p : Product) :
    ((minPriceClauses f).all fun c => evalClause c p) =
      (match f.minPrice with
       | none => true
       | some v => decide (v ≤ p.price)) := by
  cases h : f.minPrice with
  | none => simp [minPriceClauses, h]
  | some v => simp [minPriceClauses, h, evalClause]

/-- Conjunction over the maxPrice clauses. -/
theorem maxPriceClauses_all (f : ProductFilter) (p : Product) :
    ((maxPriceClauses f).all fun c => evalClause c p) =
      (match f.maxPrice with
       | none => true
       | some v => decide (p.price ≤ v)) := by
  cases h : f.maxPrice with
  | none => simp [maxPriceClauses, h]
  | some v => simp [maxPriceClauses, h, evalClause]

/-- Conjunction over the minRating clauses. -/
theorem minRatingClauses_all (f : ProductFilter) (p : Product) :
    ((minRatingClauses f).all fun c => evalClause c p) =
      (match f.minRating with
       | none => true
       | some v => decide (v ≤ p.rating)) := by
  cases h : f.minRating with
  | none => simp [minRatingClauses, h]
  | some v => simp [minRatingClauses, h, evalClause]

/-- Conjunction over the search clauses, for wildcard-free queries. -/
theorem searchClauses_all (f : ProductFilter) (p : Product)
    (hw : searchOkF f = true) :
    ((searchClauses f).all fun c => evalClause c p) =
      (match f.searchQuery with
       | none => true
       | some q => (q == "") || (ciContains p.name q || ciContains p.description q)) := by
  cases h : f.searchQuery with
  | none => simp [searchClauses, h]
  | some q =>
      have hwq : noWild (lowerL q) = true := by simpa [searchOkF, h] using hw
      by_cases hq : q = ""
      · simp [searchClauses, h, hq]
      · simp [searchClauses, h, hq, evalClause_orIlike_search q hwq p]

/-- Satisfying every clause of the built query is the amended spec
matcher, for wildcard-free queries. -/
theorem all_eval_eq_specMatchesA (f : ProductFilter) (p : Product)
    (hw : searchOkF f = true) :
    ((buildQuery (some f)).all fun c => evalClause c p) = specMatchesA f p := by
  simp only [buildQuery, List.all_append, categoryClauses_all, minPriceClauses_all,
    maxPriceClauses_all, minRatingClauses_all, searchClauses_all f p hw, specMatchesA]

/-- C1 (counterexample): with the filter `{category: ""}` the category
field is present, so under the claim's reading the returned rows must
satisfy category equality with `""`; but the code treats the empty string
as no constraint and returns a `"Books"` row anyway. -/
theorem getProducts_literal_claim_false :
    pBooks ∈ getProducts (some ⟨some "", none, none, none, none⟩) [pBooks] ∧
      specMatches ⟨some "", none, none, none, none⟩ pBooks = false := by
  decide

/-- C1 (amended): for every optional filter whose search query is free of
SQL wildcards, `getProducts` returns exactly the stored rows satisfying
the conjunction of all present non-empty filter fields (a present
empty-string category or searchQuery imposes no constraint), ordered by
`created_at` descending. -/
theorem getProducts_exact_and_sorted (f : Option ProductFilter)
    (db : List Product) (hw : searchOk f = true) :
    (getProducts f db).Perm (db.filter (specMatchesOpt f)) ∧
      List.Sorted byNewest (getProducts f db) := by
  have hfun : (fun p => (buildQuery f).all fun c => evalClause c p) = specMatchesOpt f := by
    funext p
    cases f with
    | none => rfl
    | some fl => exact all_eval_eq_specMatchesA fl p (by simpa [searchOk, searchOkF] using hw)
  constructor
  · unfold getProducts
    rw [hfun]
    exact List.perm_insertionSort byNewest _
  · exact List.sorted_insertionSort byNewest _

/-- Witness for `getProducts_exact_and_sorted` at a concrete filter and
catalog. -/
theorem getProducts_exact_and_sorted_witness :
    searchOk (some ⟨some "Books", none, none, none, some "code"⟩) = true ∧
      ((getProducts (some ⟨some "Books", none, none, none, some "code"⟩) [pBooks, pPlain]).Perm
          ([pBooks, pPlain].filter
            (specMatchesOpt (some ⟨some "Books", none, none, none, some "code"⟩))) ∧
        List.Sorted byNewest
          (getProducts (some ⟨some "Books", none, none, none, some "code"⟩) [pBooks, pPlain])) :=
  ⟨by decide,
    getProducts_exact_and_sorted (some ⟨some "Books", none, none, none, some "code"⟩)
      [pBooks, pPlain] (by decide)⟩

/-- C2 (counterexample): the example scenario also returns the record
priced 18 (rating 5 passes minRating 4 and 18 lies within [10,20]), so
the result is not "exactly the two records priced 12 and 15". -/
theorem example_scenario_includes_price18 :
    exBook 3 "b3" 18 5 ∈ getProducts (some exFilter) exCatalog ∧
      (exBook 3 "b3" 18 5).price ≠ 12 ∧ (exBook 3 "b3" 18 5).price ≠ 15 := by
  decide

/-- C2 (amended): the example scenario yields exactly the three records
priced 12, 18 and 15, newest first. -/
theorem example_scenario_result :
    getProducts (some exFilter) exCatalog =
      [exBook 5 "b5" 15 4, exBook 3 "b3" 18 5, exBook 2 "b2" 12 (mkRat 9 2)] := by
  decide

/-- C3 (counterexample): the search query is interpolated into an ILIKE
pattern, so a query consisting of the wildcard `%` returns a record that
contains `%` in neither name nor description. -/
theorem search_literal_claim_false :
    pPlain ∈ getProducts (some ⟨none, none, none, none, some "%"⟩) [pPlain] ∧
      ciContains pPlain.name "%" = false ∧
      ciContains pPlain.description "%" = false := by
  decide

/-- C3 (amended): for every non-empty search string free of SQL
wildcards, `getProducts` with only that search query returns exactly the
records in which it occurs as a case-insensitive substring of the name or
of the description. -/
theorem search_substring_exact (x : String) (db : List Product)
    (hx : x ≠ "") (hw : noWild (lowerL x) = true) :
    (getProducts (some ⟨none, none, none, none, some x⟩) db).Perm
      (db.filter fun p => ciContains p.name x || ciContains p.description x) := by
  have hfun :
      (fun p => (buildQuery (some ⟨none, none, none, none, some x⟩)).all
          fun c => evalClause c p) =
        (fun p => ciContains p.name x || ciContains p.description x) := by
    funext p
    simp [buildQuery, categoryClauses, minPriceClauses, maxPriceClauses,
      minRatingClauses, searchClauses, hx, evalClause_orIlike_search x hw p]
  unfold getProducts
  rw [hfun]
  exact List.perm_insertionSort byNewest _

/-- Witness for `search_substring_exact` at a concrete query and catalog:
"bo" occurs in the description of `pBooks` only. -/
theorem search_substring_exact_witness :
    ("bo" ≠ "" ∧ noWild (lowerL "bo") = true) ∧
      (getProducts (some ⟨none, none, none, none, some "bo"⟩) [pBooks, pPlain]).Perm
        ([pBooks, pPlain].filter
          fun p => ciContains p.name "bo" || ciContains p.description "bo") :=
  ⟨⟨by decide, by decide⟩,
    search_substring_exact "bo" [pBooks, pPlain] (by decide) (by decide)⟩

/-- C9: a present empty-string category or searchQuery builds exactly the
query of the filter without that field, while a present zero minPrice,
maxPrice or minRating still contributes its bound clause to the query. -/
theorem empty_string_vs_zero_bound (oc : Option String) (omp oxp omr : Option Rat)
    (osq : Option String) :
    buildQuery (some ⟨some "", omp, oxp, omr, osq⟩) =
        buildQuery (some ⟨none, omp, oxp, omr, osq⟩) ∧
      buildQuery (some ⟨oc, omp, oxp, omr, some ""⟩) =
        buildQuery (some ⟨oc, omp, oxp, omr, none⟩) ∧
      buildQuery (some ⟨oc, some 0, oxp, omr, osq⟩) ≠
        buildQuery (some ⟨oc, none, oxp, omr, osq⟩) ∧
      buildQuery (some ⟨oc, omp, some 0, omr, osq⟩) ≠
        buildQuery (some ⟨oc, omp, none, omr, osq⟩) ∧
      buildQuery (some ⟨oc, omp, oxp, some 0, osq⟩) ≠
        buildQuery (some ⟨oc, omp, oxp, none, osq⟩) := by
  refine ⟨?_, ?_, ?_, ?_, ?_⟩
  · simp [buildQuery, categoryClauses, minPriceClauses, maxPriceClauses,
      minRatingClauses, searchClauses]
  · simp [buildQuery, categoryClauses, minPriceClauses, maxPriceClauses,
      minRatingClauses, searchClauses]
  · intro h
    have hlen := congrArg List.length h
    simp only [buildQuery, categoryClauses, minPriceClauses, maxPriceClauses,
      minRatingClauses, searchClauses, List.length_append, List.length_cons,
      List.length_nil] at hlen
    omega
  · intro h
    have hlen := congrArg List.length h
    simp only [buildQuery, categoryClauses, minPriceClauses, maxPriceClauses,
      minRatingClauses, searchClauses, List.length_append, List.length_cons,
      List.length_nil] at hlen
    omega
  · intro h
    have hlen := congrArg List.length h
    simp only [buildQuery, categoryClauses, minPriceClauses, maxPriceClauses,
      minRatingClauses, searchClauses, List.length_append, List.length_cons,
      List.length_nil] at hlen
    omega

/-- C4: the caller of createProduct never sets id or created_at: the
stored row carries the backend-generated id and the insertion-time stamp
whatever the draft holds, so two different drafts always yield rows with
identical id and created_at. -/
theorem createProduct_id_created_at_server_assigned (d d2 : ProductDraft)
    (now : Nat) (genId : String) :
    (createProduct d now genId).id = genId ∧
      (createProduct d now genId).created_at = now ∧
      (createProduct d now genId).id = (createProduct d2 now genId).id ∧
      (createProduct d now genId).created_at = (createProduct d2 now genId).created_at :=
  ⟨rfl, rfl, rfl, rfl⟩

/-- C6: checkFormValidity evaluates the five rules in the spec's fixed
order and produces exactly the message of the first failing rule, with no
aggregation; when every rule passes it reports no error. -/
theorem checkFormValidity_eq_first_failure (d : FormDetails) :
    checkFormValidity d = firstFailure (specRules d) := by
  simp only [checkFormValidity, specRules, firstFailure]
  by_cases h1 : jsTrim d.name = []
  · simp [h1]
  · simp only [h1, if_false, beq_iff_eq, if_neg h1]
    by_cases h2 : jsTrim d.description = []
    · simp [h2]
    · simp only [h2, if_false, if_neg h2]
      by_cases h3 : d.category = ""
      · simp [h3]
      · simp only [h3, if_false, beq_iff_eq, if_neg h3]
        cases hp : jsNumber d.price with
        | none => simp
        | some pv =>
            by_cases h4 : pv < priceRuleMin
            · simp [h4]
            · simp only [h4, if_false, decide_eq_true_eq, if_neg h4]
              cases hr : jsNumber d.rating with
              | none => simp
              | some rv =>
                  by_cases h5 : rv < ratingRuleMin
                  · simp [h5]
                  · by_cases h6 : ratingRuleMax < rv
                    · simp [h5, h6]
                    · simp [h5, h6]

/-- C7: the rating bounds are inclusive: ratings 5.1 and -0.1 fail
validation with the rating message and block the service call, while
ratings 5 and 0 pass validation and reach submission. -/
theorem rating_bounds_inclusive :
    checkFormValidity (ratingForm "5.1") = some ratingRuleMessage ∧
      checkFormValidity (ratingForm "-0.1") = some ratingRuleMessage ∧
      checkFormValidity (ratingForm "5") = none ∧
      checkFormValidity (ratingForm "0") = none ∧
      buildSubmittedDraft (ratingForm "5.1") = none ∧
      buildSubmittedDraft (ratingForm "-0.1") = none ∧
      (buildSubmittedDraft (ratingForm "5")).isSome = true ∧
      (buildSubmittedDraft (ratingForm "0")).isSome = true := by
  decide

/-- C10: trimming is only for the emptiness checks: name and description
that are non-empty after trimming pass validation even with surrounding
whitespace, the submitted draft carries the raw untrimmed strings, and
the stored row persists them intact. -/
theorem untrimmed_values_persisted (d : FormDetails)
    (hn : jsTrim d.name ≠ []) (hd : jsTrim d.description ≠ [])
    (hc : d.category ≠ "")
    (pv : Rat) (hp : jsNumber d.price = some pv) (hp0 : priceRuleMin ≤ pv)
    (rv : Rat) (hr : jsNumber d.rating = some rv)
    (hr0 : ratingRuleMin ≤ rv) (hr5 : rv ≤ ratingRuleMax) :
    checkFormValidity d = none ∧
      buildSubmittedDraft d = some ⟨d.name, d.description, d.category, pv, rv⟩ ∧
      ∀ now genId,
        (createProduct ⟨d.name, d.description, d.category, pv, rv⟩ now genId).name =
            d.name ∧
          (createProduct ⟨d.name, d.description, d.category, pv, rv⟩ now genId).description =
            d.description := by
  have hv : checkFormValidity d = none := by
    simp [checkFormValidity, hn, hd, hc, hp, hr, not_lt.mpr hp0, not_lt.mpr hr0,
      not_lt.mpr hr5]
  refine ⟨hv, ?_, fun now genId => ⟨rfl, rfl⟩⟩
  simp [buildSubmittedDraft, hv, hp, hr]

/-- Witness for `untrimmed_values_persisted` at a concrete form state
with whitespace-padded name and description. -/
theorem untrimmed_values_persisted_witness :
    (jsTrim " Widget " ≠ [] ∧ jsNumber "5" = some 5) ∧
      (checkFormValidity ⟨" Widget ", " A widget ", "Home", "5", "4"⟩ = none ∧
        buildSubmittedDraft ⟨" Widget ", " A widget ", "Home", "5", "4"⟩ =
          some ⟨" Widget ", " A widget ", "Home", 5, 4⟩ ∧
        ∀ now genId,
          (createProduct ⟨" Widget ", " A widget ", "Home", 5, 4⟩ now genId).name =
              " Widget " ∧
            (createProduct ⟨" Widget ", " A widget ", "Home", 5, 4⟩ now genId).description =
              " A widget ") :=
  ⟨⟨by decide, by decide⟩,
    untrimmed_values_persisted ⟨" Widget ", " A widget ", "Home", "5", "4"⟩
      (by decide) (by decide) (by decide) 5 (by decide) (by decide)
      4 (by decide) (by decide) (by decide)⟩

/-- C5 (counterexample): after a successful delete the displayed list is
the in-memory patch of the previous list, which differs from the full
re-fetch when the displayed list was stale: here the table also held a
lamp the stale display missed, so the patch shows nothing while the
re-fetch would show the lamp. -/
theorem delete_refresh_is_not_refetch :
    handleProductRemovalSuccess [pBooks] "p1" ≠
      getProducts (some emptyFilter) (deleteFromDb [pBooks, pLamp] "p1") := by
  decide

/-- C5 (amended): after a successful create or update the displayed list
is the full re-fetch through getProducts with the committed filters,
while after a successful delete it is the incremental in-memory patch
keeping exactly the displayed rows whose id differs from the deleted
one. -/
theorem mutation_refresh_semantics (filters : ProductFilter) (db : List Product)
    (displayed : List Product) (pid : String) :
    formOnSuccess filters db = getProducts (some filters) db ∧
      ∀ p, p ∈ handleProductRemovalSuccess displayed pid ↔ p ∈ displayed ∧ p.id ≠ pid := by
  refine ⟨rfl, fun p => ?_⟩
  simp [handleProductRemovalSuccess]

/-- C8: editing a filter field updates only the draft — committed
filters, displayed products and fetch count are untouched — while the
apply action copies the draft into the committed filters and issues
exactly one getProducts fetch whose response replaces the displayed
results wholesale. -/
theorem two_phase_filter_discipline (db : List Product) (s : ListState)
    (patch : FilterPatch) :
    (stepFilter db s (FilterEvent.edit patch)).fetchCount = s.fetchCount ∧
      (stepFilter db s (FilterEvent.edit patch)).committed = s.committed ∧
      (stepFilter db s (FilterEvent.edit patch)).products = s.products ∧
      (stepFilter db s (FilterEvent.edit patch)).draft = mergeFilter s.draft patch ∧
      (stepFilter db s FilterEvent.apply).committed = s.draft ∧
      (stepFilter db s FilterEvent.apply).fetchCount = s.fetchCount + 1 ∧
      (stepFilter db s FilterEvent.apply).products =
        getProducts (some (stepFilter db s FilterEvent.apply).committed) db :=
  ⟨rfl, rfl, rfl, rfl, rfl, rfl, rfl⟩

end Catalog
